import Mathlib

/-
Verification development for the Netnut-Crawler repository.

The embedding models the three source files:
  proxy_manager.py : ProxyManager (proxy pool with LRU selection, bans,
                     dynamic delay, inner retry decorator)
  scraper.py       : RetryTracker, retry_with_tracking (outer retry loop),
                     get_serp_results (task body)
  main.py          : main (load proxies, dispatch tasks)

Python dicts are modelled as insertion-ordered association lists with
unique keys; dict assignment replaces the value at the first occurrence
of the key and otherwise appends.  Timestamps are modelled as integers.
Concurrent interference between the attempts of a retry loop is modelled
by letting every attempt read the pool from its own snapshot.
-/

set_option maxHeartbeats 1000000

/-- Whitespace predicate matching the characters stripped by str.strip
in Python for the inputs of interest. -/
def pySpace (c : Char) : Bool :=
  (c == ' ') || (c == '\t') || (c == '\n') || (c == '\r') ||
    (c == Char.ofNat 11) || (c == Char.ofNat 12)

/-- Model of the Python method str.strip: drop whitespace from both ends. -/
def pyStrip (s : String) : String :=
  ⟨((s.data.dropWhile pySpace).reverse.dropWhile pySpace).reverse⟩

/-- Lookup in an insertion-ordered association list, as a Python dict read. -/
def dictLookup : List (String × Int) → String → Option Int
  | [], _ => none
  | (k0, v0) :: d, k => if k0 = k then some v0 else dictLookup d k

/-- Assignment in an insertion-ordered association list, as a Python dict
write: replace the value at the first occurrence of the key, keeping its
position, otherwise append the new binding. -/
def dictInsert : List (String × Int) → String → Int → List (String × Int)
  | [], k, v => [(k, v)]
  | (k0, v0) :: d, k, v =>
      if k0 = k then (k, v) :: d else (k0, v0) :: dictInsert d k v

/-- The keys of an association list, in order. -/
def dictKeys (d : List (String × Int)) : List String :=
  d.map Prod.fst

/-- State of a ProxyManager instance: the proxies dict (proxy, last used
timestamp) and the banned_proxies dict (proxy, unban timestamp). -/
structure PMState where
  proxies : List (String × Int)
  banned_proxies : List (String × Int)
deriving DecidableEq

/-- The proxies dict entry returned by get_proxy for a selected key. -/
structure ProxyHandle where
  http : String
  https : String
deriving DecidableEq

/-- Builds the handle returned by get_proxy for the selected proxy key. -/
def mkHandle (k : String) : ProxyHandle :=
  ⟨"http://" ++ k, "http://" ++ k⟩

/-- The dict built by ProxyManager.read_proxies from the lines of the
file: for every line whose stripped form is nonempty, bind the stripped
line to 0. -/
def parseProxies (lines : List String) : List (String × Int) :=
  lines.foldl
    (fun d line => if pyStrip line = "" then d else dictInsert d (pyStrip line) 0)
    []

/-- ProxyManager.read_proxies: a missing file (modelled as none) leaves the
pool unchanged and returns false; otherwise the pool is replaced by the
parsed dict and the call returns whether that dict is nonempty. -/
def read_proxies (pool : List (String × Int)) (source : Option (List String)) :
    Bool × List (String × Int) :=
  match source with
  | none => (false, pool)
  | some lines =>
      let d := parseProxies lines
      (!d.isEmpty, d)

/-- The search terms built in main.py. -/
def search_terms : List String :=
  (List.range 50).map (fun i => "nana" ++ toString i)

/-- The tasks main dispatches to the thread pool: none when read_proxies
fails, the full search term list otherwise. -/
def main_dispatched (source : Option (List String)) : List String :=
  if (read_proxies [] source).1 then search_terms else []

/-- ProxyManager.get_dynamic_delay: 0 when banned_proxies is empty,
otherwise the nonnegative part of the smallest recorded unban timestamp
minus the current time. -/
def get_dynamic_delay (σ : PMState) (now : Int) : Int :=
  match σ.banned_proxies with
  | [] => 0
  | (_, v) :: rest => max 0 ((rest.map Prod.snd).foldl min v - now)

/-- Modelled from the spec for comparison: minWaitUntilUnban returns 0
when no proxy is currently banned, else the nonnegative part of the
earliest unban timestamp minus now, ranging only over proxies whose
bannedUntil lies in the future. -/
def minWaitUntilUnban_spec (σ : PMState) (now : Int) : Int :=
  match (σ.banned_proxies.map Prod.snd).filter (fun b => now < b) with
  | [] => 0
  | v :: vs => max 0 (vs.foldl min v - now)

/-- Availability test of get_proxy: a proxy is available when it has no
ban entry or its unban timestamp lies strictly in the past. -/
def isAvailable (σ : PMState) (now : Int) (p : String) : Bool :=
  match dictLookup σ.banned_proxies p with
  | none => true
  | some b => decide (b < now)

/-- The available_proxies dict computed inside get_proxy: the proxies
dict restricted to available keys, in stable iteration order. -/
def available_proxies (σ : PMState) (now : Int) : List (String × Int) :=
  σ.proxies.filter (fun pr => isAvailable σ now pr.1)

/-- The Python builtin min with a lookup key over a nonempty dict: keep
the current best and replace it only on a strictly smaller value, so the
first occurrence of the minimum wins. -/
def minByValue (best : String × Int) (xs : List (String × Int)) : String × Int :=
  xs.foldl (fun b x => if x.2 < b.2 then x else b) best

/-- ProxyManager.get_proxy, the body under the lock: compute the available
proxies; if none, raise and leave the state unchanged; otherwise select
the least recently used available proxy, set its last used timestamp to
now, and return its handle and key together with the updated state. -/
def get_proxy (σ : PMState) (now : Int) :
    Except Unit (ProxyHandle × String) × PMState :=
  match available_proxies σ now with
  | [] => (.error (), σ)
  | a :: rest =>
      let least_used_proxy := minByValue a rest
      (.ok (mkHandle least_used_proxy.1, least_used_proxy.1),
       { σ with proxies := dictInsert σ.proxies least_used_proxy.1 now })

/-- ProxyManager.update_proxy: set the last used timestamp of a known
proxy to now; unknown proxies are ignored. -/
def update_proxy (σ : PMState) (p : String) (now : Int) : PMState :=
  if (dictLookup σ.proxies p).isSome then
    { σ with proxies := dictInsert σ.proxies p now }
  else
    σ

/-- ProxyManager.ban_proxy: record an unban timestamp 180 seconds from
now for the given proxy. -/
def ban_proxy (σ : PMState) (p : String) (now : Int) : PMState :=
  { σ with banned_proxies := dictInsert σ.banned_proxies p (now + 180) }

/-- Events observable from the inner retry wrapper: invocations of the
wrapped function, indexed by the current value of tries, and sleeps with
their duration. -/
inductive InnerEv where
  | call (i : Nat)
  | sleep (d : Int)
deriving DecidableEq

/-- Result of the inner retry wrapper: the value returned by a successful
attempt, the re-raised exception after the last failed attempt, or the
implicit None when the while loop would exit normally. -/
inductive InnerResult (α : Type) where
  | ok (a : α)
  | raised
  | fellThrough
deriving DecidableEq

/-- The while loop of dynamic_retry_decorator.  fuel is max_tries minus
tries.  Every attempt reads the pool from its own snapshot (other workers
may mutate the shared state between attempts); after a failed attempt
that still has retries left, the delay is recomputed from the snapshot
taken at that moment and slept. -/
def dynamic_retry_go (snapCall snapRetry : Nat → PMState × Int) :
    Nat → Nat → List InnerEv × InnerResult ((ProxyHandle × String) × PMState)
  | 0, _ => ([], .fellThrough)
  | fuel + 1, tries =>
      match (get_proxy (snapCall tries).1 (snapCall tries).2).1 with
      | .ok hk => ([.call tries], .ok (hk, (get_proxy (snapCall tries).1 (snapCall tries).2).2))
      | .error _ =>
          if fuel = 0 then
            ([.call tries], .raised)
          else
            let d := get_dynamic_delay (snapRetry tries).1 (snapRetry tries).2
            let rest := dynamic_retry_go snapCall snapRetry fuel (tries + 1)
            (.call tries :: .sleep d :: rest.1, rest.2)

/-- The decorated get_proxy: the inner retry wrapper with max_tries = 3
starting at tries = 0. -/
def get_proxy_retried (snapCall snapRetry : Nat → PMState × Int) :
    List InnerEv × InnerResult ((ProxyHandle × String) × PMState) :=
  dynamic_retry_go snapCall snapRetry 3 0

/-- Number of invocations of the wrapped function in an inner trace. -/
def countCalls (tr : List InnerEv) : Nat :=
  (tr.filter (fun ev => match ev with | .call _ => true | .sleep _ => false)).length

/-- One entry of RetryTracker.failed_searches for a fixed task: the
attempt number, the recording timestamp, and the error text. -/
structure FailureRecord where
  attempt : Nat
  timestamp : Int
  error : String
deriving DecidableEq

/-- Result of the outer retry wrapper: the value of a successful attempt,
the re-raised exception of the final failed attempt, or the implicit
None when the for loop would exit normally. -/
inductive OuterResult where
  | ok
  | raised (e : String)
  | fellThrough
deriving DecidableEq

/-- The for loop of retry_with_tracking.  remaining counts the loop
iterations left out of tries + 1; attempt is the loop variable; tracker
is the failure list recorded so far for this task.  Returns the list of
attempt indices at which the body ran, the final tracker and the result. -/
def retry_go (body : Nat → Except String Unit) (tAt : Nat → Int) (tries : Nat) :
    Nat → Nat → List FailureRecord →
      List Nat × List FailureRecord × OuterResult
  | 0, _, tracker => ([], tracker, .fellThrough)
  | remaining + 1, attempt, tracker =>
      match body attempt with
      | .ok _ => ([attempt], tracker, .ok)
      | .error e =>
          let tracker2 := tracker ++ [⟨attempt + 1, tAt attempt, e⟩]
          if attempt = tries then
            ([attempt], tracker2, .raised e)
          else
            let rest := retry_go body tAt tries remaining (attempt + 1) tracker2
            (attempt :: rest.1, rest.2.1, rest.2.2)

/-- The decorated task body: retry_with_tracking runs the body for
attempt = 0, ..., tries, recording a failure entry for every failed
attempt and re-raising after the last one. -/
def retry_with_tracking (body : Nat → Except String Unit) (tAt : Nat → Int)
    (tries : Nat) : List Nat × List FailureRecord × OuterResult :=
  retry_go body tAt tries (tries + 1) 0 []

/-- JSON values as returned by response.json in Python. -/
inductive PyJson where
  | obj (fields : List (String × PyJson))
  | arr (items : List PyJson)
  | str (s : String)
  | num (n : Int)
  | boolean (b : Bool)
  | null

/-- The isinstance dict check applied to a decoded JSON value. -/
def PyJson.isDict : PyJson → Bool
  | .obj _ => true
  | _ => false

/-- The opaque outside world seen by one task attempt: the outcome of
get_access_keys and the decoded body of the search response. -/
structure SerpEnv where
  access_keys : Except Unit (String × String)
  search_response : Except Unit PyJson

/-- One execution of the body of get_serp_results against pool state σ:
acquire a proxy through the decorated get_proxy (snapshots constant, a
single threaded run), fetch access keys, post the search, and either ban
the proxy and raise on a response that is not a dict, or save and touch
the proxy on success.  Returns the final pool state and the outcome. -/
def get_serp_results_body (σ : PMState) (tAcq tResp : Int) (env : SerpEnv) :
    PMState × Except String Unit :=
  match (get_proxy_retried (fun _ => (σ, tAcq)) (fun _ => (σ, tAcq))).2 with
  | .fellThrough => (σ, .error "TypeError")
  | .raised => (σ, .error "No available proxies, retrying...")
  | .ok (hk, σ1) =>
      match env.access_keys with
      | .error _ => (σ1, .error "Access keys not found")
      | .ok (client_id, client_secret) =>
          if client_id = "" ∨ client_secret = "" then
            (σ1, .error ("Failed to retrieve access keys for proxy: " ++ hk.2))
          else
            match env.search_response with
            | .error _ => (σ1, .error "RequestException")
            | .ok j =>
                if j.isDict then
                  (update_proxy σ1 hk.2 tResp, .ok ())
                else
                  (ban_proxy σ1 hk.2 tResp, .error "Unexpected response format, retrying...")

/-- The outcome of the acquisition phase of one outer attempt, as the
outer loop observes it: a success continues with the rest of the body,
inner exhaustion surfaces as the single no-proxies error. -/
def acquire_result (snapCall snapRetry : Nat → PMState × Int)
    (rest : Except String Unit) : Except String Unit :=
  match (get_proxy_retried snapCall snapRetry).2 with
  | .ok _ => rest
  | .raised => .error "No available proxies, retrying..."
  | .fellThrough => .error "TypeError"

/-- The number of get_proxy invocations made by the acquisition phase of
one outer attempt. -/
def acquire_calls (snapCall snapRetry : Nat → PMState × Int) : Nat :=
  countCalls (get_proxy_retried snapCall snapRetry).1

/-! Helper lemmas about the dict model. -/

theorem dictLookup_dictInsert_self (d : List (String × Int)) (k : String) (v : Int) :
    dictLookup (dictInsert d k v) k = some v := by
  induction d with
  | nil => simp [dictInsert, dictLookup]
  | cons kv d ih =>
      obtain ⟨k0, v0⟩ := kv
      by_cases h : k0 = k
      · simp [dictInsert, h, dictLookup]
      · simp [dictInsert, h, dictLookup, ih]

theorem dictLookup_dictInsert_ne (d : List (String × Int)) (k k9 : String) (v : Int)
    (h : k9 ≠ k) : dictLookup (dictInsert d k v) k9 = dictLookup d k9 := by
  have h9 : ¬ k = k9 := fun h2 => h h2.symm
  induction d with
  | nil => simp [dictInsert, dictLookup, h9]
  | cons kv d ih =>
      obtain ⟨k0, v0⟩ := kv
      by_cases h0 : k0 = k
      · subst h0
        simp [dictInsert, dictLookup, h9]
      · simp only [dictInsert, if_neg h0]
        by_cases hk9 : k0 = k9 <;> simp [dictLookup, hk9, ih]

theorem mem_dictInsert (d : List (String × Int)) (k : String) (v : Int)
    (kv : String × Int) (h : kv ∈ dictInsert d k v) : kv ∈ d ∨ kv = (k, v) := by
  induction d with
  | nil => simp [dictInsert] at h; right; exact h
  | cons kv0 d ih =>
      obtain ⟨k0, v0⟩ := kv0
      by_cases h0 : k0 = k
      · simp only [dictInsert, if_pos h0] at h
        rcases List.mem_cons.mp h with h1 | h1
        · right; exact h1
        · left; exact List.mem_cons_of_mem _ h1
      · simp only [dictInsert, if_neg h0] at h
        rcases List.mem_cons.mp h with h1 | h1
        · left; exact h1 ▸ List.mem_cons_self _ _
        · rcases ih h1 with h2 | h2
          · left; exact List.mem_cons_of_mem _ h2
          · right; exact h2

theorem dictKeys_dictInsert (d : List (String × Int)) (k : String) (v : Int) :
    dictKeys (dictInsert d k v) =
      if k ∈ dictKeys d then dictKeys d else dictKeys d ++ [k] := by
  induction d with
  | nil => simp [dictInsert, dictKeys]
  | cons kv0 d ih =>
      obtain ⟨k0, v0⟩ := kv0
      by_cases h0 : k0 = k
      · subst h0
        simp [dictInsert, dictKeys]
      · have h0s : ¬ k = k0 := fun h2 => h0 h2.symm
        simp only [dictInsert, if_neg h0, dictKeys, List.map_cons] at *
        by_cases hm : k ∈ dictKeys d
        · simp only [dictKeys] at hm
          simp [hm, ih, List.mem_cons, h0s]
        · simp only [dictKeys] at hm
          simp [hm, ih, List.mem_cons, h0s]

theorem nodup_dictKeys_dictInsert (d : List (String × Int)) (k : String) (v : Int)
    (h : (dictKeys d).Nodup) : (dictKeys (dictInsert d k v)).Nodup := by
  rw [dictKeys_dictInsert]
  by_cases hm : k ∈ dictKeys d
  · simpa [hm] using h
  · simp only [if_neg hm]
    rw [List.nodup_append]
    refine ⟨h, List.nodup_singleton k, ?_⟩
    intro a ha hk
    rw [List.mem_singleton] at hk
    subst hk
    exact hm ha

theorem mem_dictKeys_dictInsert (d : List (String × Int)) (k k9 : String) (v : Int) :
    k9 ∈ dictKeys (dictInsert d k v) ↔ k9 ∈ dictKeys d ∨ k9 = k := by
  rw [dictKeys_dictInsert]
  by_cases hm : k ∈ dictKeys d
  · simp only [if_pos hm]
    constructor
    · exact Or.inl
    · rintro (h | rfl)
      · exact h
      · exact hm
  · simp [if_neg hm]

/-! Helper lemmas about the Python builtin min with a key. -/

theorem minByValue_cons (best x : String × Int) (xs : List (String × Int)) :
    minByValue best (x :: xs) = minByValue (if x.2 < best.2 then x else best) xs := rfl

theorem minByValue_le_init (best : String × Int) (xs : List (String × Int)) :
    (minByValue best xs).2 ≤ best.2 := by
  induction xs generalizing best with
  | nil => exact le_refl _
  | cons x xs ih =>
      rw [minByValue_cons]
      refine le_trans (ih _) ?_
      by_cases h : x.2 < best.2
      · simpa [h] using le_of_lt h
      · simp [h]

theorem minByValue_le_mem (best : String × Int) (xs : List (String × Int)) :
    ∀ x ∈ xs, (minByValue best xs).2 ≤ x.2 := by
  induction xs generalizing best with
  | nil => intro x hx; simp at hx
  | cons y ys ih =>
      intro x hx
      rw [minByValue_cons]
      rcases List.mem_cons.mp hx with rfl | hx
      · refine le_trans (minByValue_le_init _ _) ?_
        by_cases h : x.2 < best.2
        · simp [h]
        · simpa [h] using le_of_not_lt h
      · exact ih _ x hx

theorem minByValue_decomp (best : String × Int) (xs : List (String × Int)) :
    ∃ pre post, best :: xs = pre ++ minByValue best xs :: post ∧
      ∀ y ∈ pre, (minByValue best xs).2 < y.2 := by
  induction xs generalizing best with
  | nil => exact ⟨[], [], rfl, by simp⟩
  | cons x xs ih =>
      rw [minByValue_cons]
      by_cases h : x.2 < best.2
      · rw [if_pos h]
        obtain ⟨pre, post, heq, hlt⟩ := ih x
        refine ⟨best :: pre, post, by simpa using heq, ?_⟩
        intro y hy
        rcases List.mem_cons.mp hy with rfl | hy
        · exact lt_of_le_of_lt (minByValue_le_init _ _) h
        · exact hlt y hy
      · rw [if_neg h]
        obtain ⟨pre, post, heq, hlt⟩ := ih best
        cases pre with
        | nil =>
            simp only [List.nil_append] at heq
            injection heq with h1 h2
            refine ⟨[], x :: xs, ?_, by simp⟩
            rw [List.nil_append, ← h1]
        | cons p0 pre9 =>
            simp only [List.cons_append] at heq
            injection heq with h1 h2
            have hb : (minByValue best xs).2 < best.2 := by
              have hb0 := hlt p0 (List.mem_cons_self _ _)
              rw [← h1] at hb0
              exact hb0
            refine ⟨best :: x :: pre9, post, ?_, ?_⟩
            · conv_lhs => rw [h2]
              simp [List.cons_append]
            · intro y hy
              rcases List.mem_cons.mp hy with rfl | hy
              · exact hb
              · rcases List.mem_cons.mp hy with rfl | hy
                · exact lt_of_lt_of_le hb (le_of_not_lt h)
                · exact hlt y (List.mem_cons_of_mem _ hy)

theorem minByValue_mem (best : String × Int) (xs : List (String × Int)) :
    minByValue best xs ∈ best :: xs := by
  obtain ⟨pre, post, heq, _⟩ := minByValue_decomp best xs
  rw [heq]
  exact List.mem_append_right _ (List.mem_cons_self _ _)

/-! Helper lemmas about foldl min over the recorded unban timestamps. -/

theorem foldl_min_choice (x : Int) (xs : List Int) :
    xs.foldl min x = x ∨ xs.foldl min x ∈ xs := by
  induction xs generalizing x with
  | nil => left; rfl
  | cons y ys ih =>
      rw [List.foldl_cons]
      rcases ih (min x y) with h | h
      · rcases min_choice x y with h2 | h2
        · left; rw [h, h2]
        · right; rw [h, h2]; exact List.mem_cons_self _ _
      · right; exact List.mem_cons_of_mem _ h

theorem foldl_min_le_init (x : Int) (xs : List Int) : xs.foldl min x ≤ x := by
  induction xs generalizing x with
  | nil => exact le_refl _
  | cons y ys ih =>
      rw [List.foldl_cons]
      exact le_trans (ih _) (min_le_left _ _)

theorem foldl_min_le_mem (x : Int) (xs : List Int) :
    ∀ y ∈ xs, xs.foldl min x ≤ y := by
  induction xs generalizing x with
  | nil => intro y hy; simp at hy
  | cons z zs ih =>
      intro y hy
      rw [List.foldl_cons]
      rcases List.mem_cons.mp hy with rfl | hy
      · exact le_trans (foldl_min_le_init _ _) (min_le_right _ _)
      · exact ih _ y hy

/-! Claim C1. -/

/-- Claim C1: for every pool state with at least one available proxy,
get_proxy returns the available proxy (no ban entry or unban time in the
past) whose last used timestamp is minimum over the available proxies,
breaking ties by stable iteration order (it is the first minimal entry
of the available dict), and in the same locked operation the returned
state has that proxy marked as used now, with every other last used
timestamp and the ban table untouched. -/
theorem get_proxy_selects_min_lastUsed (σ : PMState) (now : Int)
    (h : available_proxies σ now ≠ []) :
    ∃ k v,
      (get_proxy σ now).1 = .ok (mkHandle k, k) ∧
      (k, v) ∈ available_proxies σ now ∧
      (∀ pu ∈ available_proxies σ now, v ≤ pu.2) ∧
      (∃ pre post, available_proxies σ now = pre ++ (k, v) :: post ∧
        ∀ y ∈ pre, v < y.2) ∧
      dictLookup (get_proxy σ now).2.proxies k = some now ∧
      (∀ p, p ≠ k →
        dictLookup (get_proxy σ now).2.proxies p = dictLookup σ.proxies p) ∧
      (get_proxy σ now).2.banned_proxies = σ.banned_proxies := by
  cases havail : available_proxies σ now with
  | nil => exact absurd havail h
  | cons a rest =>
      refine ⟨(minByValue a rest).1, (minByValue a rest).2, ?_, ?_, ?_, ?_, ?_, ?_, ?_⟩
      · simp [get_proxy, havail]
      · exact minByValue_mem a rest
      · intro pu hpu
        rcases List.mem_cons.mp hpu with rfl | hpu
        · exact minByValue_le_init _ _
        · exact minByValue_le_mem _ _ _ hpu
      · exact minByValue_decomp a rest
      · simp only [get_proxy, havail]
        exact dictLookup_dictInsert_self _ _ _
      · intro p hp
        simp only [get_proxy, havail]
        exact dictLookup_dictInsert_ne _ _ _ _ hp
      · simp [get_proxy, havail]

/-- Witness for claim C1 at a concrete pool: two unbanned proxies with
last used timestamps 5 and 3. -/
theorem get_proxy_selects_min_lastUsed_witness :
    available_proxies ⟨[("a", 5), ("b", 3)], []⟩ 10 ≠ [] ∧
    (∃ k v,
      (get_proxy ⟨[("a", 5), ("b", 3)], []⟩ 10).1 = .ok (mkHandle k, k) ∧
      (k, v) ∈ available_proxies ⟨[("a", 5), ("b", 3)], []⟩ 10 ∧
      (∀ pu ∈ available_proxies ⟨[("a", 5), ("b", 3)], []⟩ 10, v ≤ pu.2) ∧
      (∃ pre post, available_proxies ⟨[("a", 5), ("b", 3)], []⟩ 10 =
          pre ++ (k, v) :: post ∧ ∀ y ∈ pre, v < y.2) ∧
      dictLookup (get_proxy ⟨[("a", 5), ("b", 3)], []⟩ 10).2.proxies k = some 10 ∧
      (∀ p, p ≠ k →
        dictLookup (get_proxy ⟨[("a", 5), ("b", 3)], []⟩ 10).2.proxies p =
          dictLookup (⟨[("a", 5), ("b", 3)], []⟩ : PMState).proxies p) ∧
      (get_proxy ⟨[("a", 5), ("b", 3)], []⟩ 10).2.banned_proxies =
        (⟨[("a", 5), ("b", 3)], []⟩ : PMState).banned_proxies) :=
  ⟨by decide, get_proxy_selects_min_lastUsed ⟨[("a", 5), ("b", 3)], []⟩ 10 (by decide)⟩

/-! Claim C9. -/

/-- Claim C9: get_proxy fails exactly when no proxy is available, and a
failed call returns the pool state unchanged: no last used timestamp and
no ban entry is modified by the error path. -/
theorem get_proxy_error_preserves_state (σ : PMState) (now : Int) :
    ((get_proxy σ now).1 = .error () ↔ available_proxies σ now = []) ∧
    ((get_proxy σ now).1 = .error () → (get_proxy σ now).2 = σ) := by
  cases havail : available_proxies σ now with
  | nil => simp [get_proxy, havail]
  | cons a rest => simp [get_proxy, havail]

/-- Witness for claim C9 at a concrete pool whose only proxy is banned
until time 200, probed at time 10. -/
theorem get_proxy_error_preserves_state_witness :
    (get_proxy ⟨[("a", 5)], [("a", 200)]⟩ 10).2 = ⟨[("a", 5)], [("a", 200)]⟩ :=
  (get_proxy_error_preserves_state ⟨[("a", 5)], [("a", 200)]⟩ 10).2 (by rfl)

/-! Claim C3. -/

/-- Counterexample to claim C3 as stated: ban the only proxy at time 0,
so its recorded unban time is 180; at the instant 180 exactly the claim
asserts the proxy is eligible again, but the availability test demands a
time strictly greater than the recorded unban time, so the available set
is still empty at 180. -/
theorem ban_proxy_boundary_counterexample :
    dictLookup (ban_proxy ⟨[("p", 0)], []⟩ "p" 0).banned_proxies "p" = some 180 ∧
    ("p", 0) ∈ (ban_proxy ⟨[("p", 0)], []⟩ "p" 0).proxies ∧
    available_proxies (ban_proxy ⟨[("p", 0)], []⟩ "p" 0) 180 = [] := by
  decide

/-- Claim C3 amended: ban_proxy at time T records the unban timestamp
T + 180, the banned proxy is excluded from selection at every instant up
to and including T + 180, and it is eligible again at every instant
strictly after T + 180. -/
theorem ban_proxy_cooldown (σ : PMState) (k : String) (T : Int) :
    dictLookup (ban_proxy σ k T).banned_proxies k = some (T + 180) ∧
    (∀ t v, t ≤ T + 180 → (k, v) ∉ available_proxies (ban_proxy σ k T) t) ∧
    (∀ t v, T + 180 < t → (k, v) ∈ σ.proxies →
      (k, v) ∈ available_proxies (ban_proxy σ k T) t) := by
  have hb : dictLookup (ban_proxy σ k T).banned_proxies k = some (T + 180) :=
    dictLookup_dictInsert_self _ _ _
  refine ⟨hb, ?_, ?_⟩
  · intro t v ht hmem
    rw [available_proxies, List.mem_filter] at hmem
    have hav : isAvailable (ban_proxy σ k T) t k = true := hmem.2
    rw [isAvailable, hb] at hav
    simp only [decide_eq_true_eq] at hav
    omega
  · intro t v ht hmem
    rw [available_proxies, List.mem_filter]
    constructor
    · simpa [ban_proxy] using hmem
    · rw [isAvailable, hb]
      simpa using ht

/-- Witness for the amended claim C3: pool with one proxy, banned at
time 0; the proxy is not selectable at time 180 and selectable at time
181. -/
theorem ban_proxy_cooldown_witness :
    ("p", 0) ∉ available_proxies (ban_proxy ⟨[("p", 0)], []⟩ "p" 0) 180 ∧
    ("p", 0) ∈ available_proxies (ban_proxy ⟨[("p", 0)], []⟩ "p" 0) 181 :=
  ⟨(ban_proxy_cooldown ⟨[("p", 0)], []⟩ "p" 0).2.1 180 0 (by decide),
   (ban_proxy_cooldown ⟨[("p", 0)], []⟩ "p" 0).2.2 181 0 (by decide) (by decide)⟩

/-! Claim C2. -/

/-- Counterexample to claim C2 as stated: with one ban entry already
expired (unban time 10) and one still current (unban time 100), probed
at time 50, get_dynamic_delay takes the minimum over all recorded
entries and returns 0, while the spec formula over currently banned
proxies only would return 50. -/
theorem get_dynamic_delay_spec_counterexample :
    get_dynamic_delay ⟨[("a", 0), ("b", 0)], [("a", 10), ("b", 100)]⟩ 50 = 0 ∧
    minWaitUntilUnban_spec ⟨[("a", 0), ("b", 0)], [("a", 10), ("b", 100)]⟩ 50 = 50 ∧
    get_dynamic_delay ⟨[("a", 0), ("b", 0)], [("a", 10), ("b", 100)]⟩ 50 ≠
      minWaitUntilUnban_spec ⟨[("a", 0), ("b", 0)], [("a", 10), ("b", 100)]⟩ 50 := by
  decide

/-- Claim C2 amended: get_dynamic_delay returns 0 when the ban table is
empty; when it is nonempty the result is the nonnegative part of the
smallest recorded unban timestamp minus now, ranging over all recorded
ban entries including expired ones (they are never pruned), so any
expired entry forces the result to 0; the result agrees with the spec
formula over currently banned proxies whenever no recorded entry has
expired. -/
theorem get_dynamic_delay_characterization (σ : PMState) (now : Int) :
    (σ.banned_proxies = [] → get_dynamic_delay σ now = 0) ∧
    (σ.banned_proxies ≠ [] →
      ∃ b, b ∈ σ.banned_proxies.map Prod.snd ∧
        (∀ b9 ∈ σ.banned_proxies.map Prod.snd, b ≤ b9) ∧
        get_dynamic_delay σ now = max 0 (b - now)) ∧
    ((∃ b ∈ σ.banned_proxies.map Prod.snd, b ≤ now) →
      get_dynamic_delay σ now = 0) ∧
    ((∀ b ∈ σ.banned_proxies.map Prod.snd, now < b) →
      get_dynamic_delay σ now = minWaitUntilUnban_spec σ now) := by
  cases hban : σ.banned_proxies with
  | nil =>
      refine ⟨fun _ => by simp [get_dynamic_delay, hban], ?_, ?_, ?_⟩
      · intro h; exact absurd rfl h
      · intro h
        simp at h
      · intro _
        simp [get_dynamic_delay, minWaitUntilUnban_spec, hban]
  | cons kv rest =>
      obtain ⟨k0, v0⟩ := kv
      have hdd : get_dynamic_delay σ now =
          max 0 ((rest.map Prod.snd).foldl min v0 - now) := by
        simp [get_dynamic_delay, hban]
      have hmem : (rest.map Prod.snd).foldl min v0 ∈
          ((k0, v0) :: rest).map Prod.snd := by
        rw [List.map_cons]
        rcases foldl_min_choice v0 (rest.map Prod.snd) with h | h
        · rw [h]; exact List.mem_cons_self _ _
        · exact List.mem_cons_of_mem _ h
      have hle : ∀ b9 ∈ ((k0, v0) :: rest).map Prod.snd,
          (rest.map Prod.snd).foldl min v0 ≤ b9 := by
        rw [List.map_cons]
        intro b9 hb9
        rcases List.mem_cons.mp hb9 with rfl | hb9
        · exact foldl_min_le_init _ _
        · exact foldl_min_le_mem _ _ _ hb9
      refine ⟨?_, ?_, ?_, ?_⟩
      · intro h
        exact absurd h (List.cons_ne_nil _ _)
      · intro _
        exact ⟨(rest.map Prod.snd).foldl min v0, hmem, hle, hdd⟩
      · rintro ⟨b, hb, hbnow⟩
        have hfb := hle b hb
        rw [hdd]
        exact max_eq_left (by omega)
      · intro hall
        have hfil : List.filter (fun b => now < b) (v0 :: rest.map Prod.snd) =
            v0 :: rest.map Prod.snd :=
          List.filter_eq_self.mpr (fun b hb => by
            simpa using hall b (by simpa using hb))
        rw [hdd]
        simp only [minWaitUntilUnban_spec, hban, List.map_cons, hfil]

/-- Witness for the amended claim C2: one current ban (until 100) and
one expired ban (until 40) at time 50 give delay 0. -/
theorem get_dynamic_delay_characterization_witness :
    get_dynamic_delay ⟨[("a", 0)], [("a", 100), ("b", 40)]⟩ 50 = 0 :=
  (get_dynamic_delay_characterization ⟨[("a", 0)], [("a", 100), ("b", 40)]⟩ 50).2.2.1
    ⟨40, by decide, by decide⟩

/-! Helper lemmas about the inner retry loop. -/

theorem countCalls_call (i : Nat) (tr : List InnerEv) :
    countCalls (.call i :: tr) = countCalls tr + 1 := by
  simp [countCalls, List.filter]

theorem countCalls_sleep (d : Int) (tr : List InnerEv) :
    countCalls (.sleep d :: tr) = countCalls tr := by
  simp [countCalls, List.filter]

theorem inner_all_fail (snapCall snapRetry : Nat → PMState × Int)
    (h : ∀ i, (get_proxy (snapCall i).1 (snapCall i).2).1 = .error ()) :
    get_proxy_retried snapCall snapRetry =
      ([.call 0, .sleep (get_dynamic_delay (snapRetry 0).1 (snapRetry 0).2),
        .call 1, .sleep (get_dynamic_delay (snapRetry 1).1 (snapRetry 1).2),
        .call 2], .raised) := by
  simp [get_proxy_retried, dynamic_retry_go, h 0, h 1, h 2]

theorem countCalls_dynamic_retry_go_le (snapCall snapRetry : Nat → PMState × Int) :
    ∀ fuel tries, countCalls (dynamic_retry_go snapCall snapRetry fuel tries).1 ≤ fuel := by
  intro fuel
  induction fuel with
  | zero => intro tries; simp [dynamic_retry_go, countCalls]
  | succ fuel ih =>
      intro tries
      simp only [dynamic_retry_go]
      split
      · simp [countCalls_call, countCalls]
      · split
        · simp [countCalls_call, countCalls]
        · simp only [countCalls_call, countCalls_sleep]
          have := ih (tries + 1)
          omega

/-! Helper lemmas about the outer retry loop. -/

theorem retry_go_all_fail (body : Nat → Except String Unit) (tAt : Nat → Int)
    (tries : Nat) (e : Nat → String) (hb : ∀ i, body i = .error (e i)) :
    ∀ remaining attempt tracker, attempt + remaining = tries + 1 → 1 ≤ remaining →
      retry_go body tAt tries remaining attempt tracker =
        (List.range' attempt remaining,
         tracker ++ (List.range' attempt remaining).map
           (fun i => ⟨i + 1, tAt i, e i⟩),
         .raised (e tries)) := by
  intro remaining
  induction remaining with
  | zero => intro attempt tracker _ h1; omega
  | succ remaining ih =>
      intro attempt tracker hsum _
      simp only [retry_go, hb attempt]
      by_cases hat : attempt = tries
      · have hr0 : remaining = 0 := by omega
        subst hr0
        subst hat
        simp [List.range']
      · have hr1 : 1 ≤ remaining := by omega
        rw [if_neg hat]
        have hrec := ih (attempt + 1)
          (tracker ++ [FailureRecord.mk (attempt + 1) (tAt attempt) (e attempt)])
          (by omega) hr1
        rw [hrec]
        simp [List.range']

/-! Claim C4. -/

/-- Claim C4: a task body that fails on every invocation is executed
exactly 11 times by the outer loop (attempts 0 through 10), the tracker
ends with exactly 11 entries for the task, in insertion order and with
attempt numbers 1 through 11, and the final error is then re-raised to
the caller. -/
theorem outer_retry_eleven_attempts (body : Nat → Except String Unit)
    (tAt : Nat → Int) (e : Nat → String) (hb : ∀ i, body i = .error (e i)) :
    retry_with_tracking body tAt 10 =
      (List.range 11,
       (List.range 11).map (fun i => ⟨i + 1, tAt i, e i⟩),
       .raised (e 10)) := by
  rw [retry_with_tracking,
    retry_go_all_fail body tAt 10 e hb 11 0 [] (by omega) (by omega)]
  simp [List.range_eq_range']

/-- Witness for claim C4: a body failing with a fixed error at a fixed
clock yields the full 11-entry history and the re-raised error. -/
theorem outer_retry_eleven_attempts_witness :
    retry_with_tracking (fun _ => .error "boom") (fun _ => 7) 10 =
      (List.range 11,
       (List.range 11).map (fun i => ⟨i + 1, 7, "boom"⟩),
       .raised "boom") := by
  simpa using outer_retry_eleven_attempts (fun _ => .error "boom") (fun _ => 7)
    (fun _ => "boom") (fun _ => rfl)

/-! Claim C5. -/

/-- Claim C5: the inner acquisition loop invokes get_proxy at most 3
times; a first success returns immediately after one call; after each of
the first two failures the wait is recomputed from the pool snapshot at
that retry moment and slept before the next call; and when all 3
attempts fail the error propagates with no sleep after the third call. -/
theorem inner_retry_trace (snapCall snapRetry : Nat → PMState × Int) :
    countCalls (get_proxy_retried snapCall snapRetry).1 ≤ 3 ∧
    (∀ a, (get_proxy (snapCall 0).1 (snapCall 0).2).1 = .ok a →
      get_proxy_retried snapCall snapRetry =
        ([.call 0], .ok (a, (get_proxy (snapCall 0).1 (snapCall 0).2).2))) ∧
    (∀ a, (get_proxy (snapCall 0).1 (snapCall 0).2).1 = .error () →
          (get_proxy (snapCall 1).1 (snapCall 1).2).1 = .ok a →
      get_proxy_retried snapCall snapRetry =
        ([.call 0, .sleep (get_dynamic_delay (snapRetry 0).1 (snapRetry 0).2),
          .call 1],
         .ok (a, (get_proxy (snapCall 1).1 (snapCall 1).2).2))) ∧
    (∀ a, (get_proxy (snapCall 0).1 (snapCall 0).2).1 = .error () →
          (get_proxy (snapCall 1).1 (snapCall 1).2).1 = .error () →
          (get_proxy (snapCall 2).1 (snapCall 2).2).1 = .ok a →
      get_proxy_retried snapCall snapRetry =
        ([.call 0, .sleep (get_dynamic_delay (snapRetry 0).1 (snapRetry 0).2),
          .call 1, .sleep (get_dynamic_delay (snapRetry 1).1 (snapRetry 1).2),
          .call 2],
         .ok (a, (get_proxy (snapCall 2).1 (snapCall 2).2).2))) ∧
    ((get_proxy (snapCall 0).1 (snapCall 0).2).1 = .error () →
     (get_proxy (snapCall 1).1 (snapCall 1).2).1 = .error () →
     (get_proxy (snapCall 2).1 (snapCall 2).2).1 = .error () →
      get_proxy_retried snapCall snapRetry =
        ([.call 0, .sleep (get_dynamic_delay (snapRetry 0).1 (snapRetry 0).2),
          .call 1, .sleep (get_dynamic_delay (snapRetry 1).1 (snapRetry 1).2),
          .call 2], .raised)) := by
  refine ⟨countCalls_dynamic_retry_go_le snapCall snapRetry 3 0, ?_, ?_, ?_, ?_⟩
  · intro a h0
    simp [get_proxy_retried, dynamic_retry_go, h0]
  · intro a h0 h1
    simp [get_proxy_retried, dynamic_retry_go, h0, h1]
  · intro a h0 h1 h2
    simp [get_proxy_retried, dynamic_retry_go, h0, h1, h2]
  · intro h0 h1 h2
    simp [get_proxy_retried, dynamic_retry_go, h0, h1, h2]

/-- Witness for claim C5: with an empty pool every acquisition fails, the
trace is exactly call, sleep 0, call, sleep 0, call, and the error
propagates. -/
theorem inner_retry_trace_witness :
    get_proxy_retried (fun _ => (⟨[], []⟩, 0)) (fun _ => (⟨[], []⟩, 0)) =
      ([.call 0, .sleep 0, .call 1, .sleep 0, .call 2], .raised) := by
  simpa using
    (inner_retry_trace (fun _ => (⟨[], []⟩, 0)) (fun _ => (⟨[], []⟩, 0))).2.2.2.2
      rfl rfl rfl

theorem retry_go_self_mem (body : Nat → Except String Unit) (tAt : Nat → Int)
    (tries r a : Nat) (tr : List FailureRecord) :
    a ∈ (retry_go body tAt tries (r + 1) a tr).1 := by
  cases hb : body a with
  | ok v => simp [retry_go, hb]
  | error e =>
      by_cases hat : a = tries
      · subst hat
        simp [retry_go, hb]
      · simp [retry_go, hb, hat]

theorem retry_go_next (body : Nat → Except String Unit) (tAt : Nat → Int)
    (tries : Nat) :
    ∀ remaining attempt tracker, attempt + remaining = tries + 1 →
      ∀ j err, j ∈ (retry_go body tAt tries remaining attempt tracker).1 →
        body j = .error err → j < tries →
        j + 1 ∈ (retry_go body tAt tries remaining attempt tracker).1 := by
  intro remaining
  induction remaining with
  | zero =>
      intro attempt tracker hsum j err hj
      simp [retry_go] at hj
  | succ remaining ih =>
      intro attempt tracker hsum j err hj hbody hjt
      cases hb : body attempt with
      | ok v =>
          simp only [retry_go, hb] at hj ⊢
          simp at hj
          subst hj
          rw [hb] at hbody
          simp at hbody
      | error e0 =>
          by_cases hat : attempt = tries
          · simp only [retry_go, hb, if_pos hat] at hj ⊢
            simp at hj
            subst hj
            omega
          · simp only [retry_go, hb, if_neg hat] at hj ⊢
            rcases List.mem_cons.mp hj with rfl | hj
            · apply List.mem_cons_of_mem
              obtain ⟨r9, hr9⟩ : ∃ r9, remaining = r9 + 1 := ⟨remaining - 1, by omega⟩
              rw [hr9]
              exact retry_go_self_mem body tAt tries r9 (j + 1) _
            · exact List.mem_cons_of_mem _
                (ih (attempt + 1) _ (by omega) j err hj hbody hjt)

/-! Claim C6. -/

/-- Claim C6: when every acquisition attempt fails, each outer attempt
observes the exhausted inner loop as a single failure: the outer loop
runs its 11 attempts, the tracker records exactly 11 entries (one per
outer attempt, not one per inner try), while the inner loop performed 33
get_proxy invocations in total (3 per outer attempt). -/
theorem inner_exhaustion_single_outer_failure
    (snapC snapR : Nat → Nat → PMState × Int) (rest : Nat → Except String Unit)
    (tAt : Nat → Int)
    (h : ∀ j i, (get_proxy (snapC j i).1 (snapC j i).2).1 = .error ()) :
    (retry_with_tracking
      (fun j => acquire_result (snapC j) (snapR j) (rest j)) tAt 10).1.length = 11 ∧
    (retry_with_tracking
      (fun j => acquire_result (snapC j) (snapR j) (rest j)) tAt 10).2.1.length = 11 ∧
    ((retry_with_tracking
      (fun j => acquire_result (snapC j) (snapR j) (rest j)) tAt 10).1.map
        (fun j => acquire_calls (snapC j) (snapR j))).sum = 33 := by
  have hbody : ∀ j, acquire_result (snapC j) (snapR j) (rest j) =
      .error "No available proxies, retrying..." := by
    intro j
    rw [acquire_result, inner_all_fail (snapC j) (snapR j) (h j)]
  have hcalls : ∀ j, acquire_calls (snapC j) (snapR j) = 3 := by
    intro j
    rw [acquire_calls, inner_all_fail (snapC j) (snapR j) (h j)]
    simp [countCalls_call, countCalls_sleep, countCalls]
  have hrun := retry_go_all_fail
    (fun j => acquire_result (snapC j) (snapR j) (rest j)) tAt 10
    (fun _ => "No available proxies, retrying...") hbody 11 0 [] (by omega) (by omega)
  rw [retry_with_tracking, hrun]
  refine ⟨by simp, by simp, ?_⟩
  simp only [hcalls]
  decide

/-- Witness for claim C6: empty pool at every snapshot, so every inner
attempt fails; the run shows 11 outer attempts, 11 records, 33 inner
calls. -/
theorem inner_exhaustion_single_outer_failure_witness :
    (retry_with_tracking
      (fun _ => acquire_result (fun _ => (⟨[], []⟩, 0)) (fun _ => (⟨[], []⟩, 0))
        (.ok ())) (fun _ => 0) 10).1.length = 11 ∧
    (retry_with_tracking
      (fun _ => acquire_result (fun _ => (⟨[], []⟩, 0)) (fun _ => (⟨[], []⟩, 0))
        (.ok ())) (fun _ => 0) 10).2.1.length = 11 ∧
    ((retry_with_tracking
      (fun _ => acquire_result (fun _ => (⟨[], []⟩, 0)) (fun _ => (⟨[], []⟩, 0))
        (.ok ())) (fun _ => 0) 10).1.map
        (fun _ => acquire_calls (fun _ => (⟨[], []⟩, 0)) (fun _ => (⟨[], []⟩, 0)))).sum
      = 33 := by
  simpa using inner_exhaustion_single_outer_failure
    (fun _ _ => (⟨[], []⟩, 0)) (fun _ _ => (⟨[], []⟩, 0))
    (fun _ => .ok ()) (fun _ => 0) (fun _ _ => rfl)

/-! Helper lemmas about parsing the proxies file. -/

theorem parseProxies_fold_blank (lines : List String) (d0 : List (String × Int))
    (h : ∀ l ∈ lines, pyStrip l = "") :
    lines.foldl
      (fun d line => if pyStrip line = "" then d else dictInsert d (pyStrip line) 0)
      d0 = d0 := by
  induction lines generalizing d0 with
  | nil => rfl
  | cons l ls ih =>
      rw [List.foldl_cons]
      simp only [if_pos (h l (List.mem_cons_self _ _))]
      exact ih _ (fun x hx => h x (List.mem_cons_of_mem _ hx))

theorem parseProxies_fold_values (lines : List String) (d0 : List (String × Int))
    (h0 : ∀ kv ∈ d0, kv.2 = 0) :
    ∀ kv ∈ lines.foldl
      (fun d line => if pyStrip line = "" then d else dictInsert d (pyStrip line) 0)
      d0, kv.2 = 0 := by
  induction lines generalizing d0 with
  | nil => exact h0
  | cons l ls ih =>
      rw [List.foldl_cons]
      apply ih
      by_cases hb : pyStrip l = ""
      · simpa [hb] using h0
      · simp only [if_neg hb]
        intro kv hkv
        rcases mem_dictInsert _ _ _ _ hkv with h1 | h1
        · exact h0 kv h1
        · rw [h1]

theorem parseProxies_fold_nodup (lines : List String) (d0 : List (String × Int))
    (h0 : (dictKeys d0).Nodup) :
    (dictKeys (lines.foldl
      (fun d line => if pyStrip line = "" then d else dictInsert d (pyStrip line) 0)
      d0)).Nodup := by
  induction lines generalizing d0 with
  | nil => exact h0
  | cons l ls ih =>
      rw [List.foldl_cons]
      apply ih
      by_cases hb : pyStrip l = ""
      · simpa [hb] using h0
      · simp only [if_neg hb]
        exact nodup_dictKeys_dictInsert _ _ _ h0

theorem parseProxies_fold_keys (lines : List String) :
    ∀ (d0 : List (String × Int)) (k : String),
      k ∈ dictKeys (lines.foldl
        (fun d line => if pyStrip line = "" then d else dictInsert d (pyStrip line) 0)
        d0) ↔
      k ∈ dictKeys d0 ∨ (k ≠ "" ∧ ∃ l ∈ lines, pyStrip l = k) := by
  induction lines with
  | nil => intro d0 k; simp
  | cons l ls ih =>
      intro d0 k
      rw [List.foldl_cons]
      by_cases hb : pyStrip l = ""
      · simp only [if_pos hb]
        rw [ih d0 k]
        constructor
        · rintro (h | ⟨hk, x, hx, hsx⟩)
          · exact Or.inl h
          · exact Or.inr ⟨hk, x, List.mem_cons_of_mem _ hx, hsx⟩
        · rintro (h | ⟨hk, x, hx, hsx⟩)
          · exact Or.inl h
          · rcases List.mem_cons.mp hx with rfl | hx
            · exact absurd (hb ▸ hsx).symm hk
            · exact Or.inr ⟨hk, x, hx, hsx⟩
      · simp only [if_neg hb]
        rw [ih _ k, mem_dictKeys_dictInsert]
        constructor
        · rintro ((h | rfl) | ⟨hk, x, hx, hsx⟩)
          · exact Or.inl h
          · exact Or.inr ⟨hb, l, List.mem_cons_self _ _, rfl⟩
          · exact Or.inr ⟨hk, x, List.mem_cons_of_mem _ hx, hsx⟩
        · rintro (h | ⟨hk, x, hx, hsx⟩)
          · exact Or.inl (Or.inl h)
          · rcases List.mem_cons.mp hx with rfl | hx
            · exact Or.inl (Or.inr hsx.symm)
            · exact Or.inr ⟨hk, x, hx, hsx⟩

/-! Claim C7. -/

/-- Claim C7: loading proxies from a missing source, or from one whose
lines all strip to the empty string, makes read_proxies report failure,
and main then dispatches no tasks before exiting. -/
theorem no_proxies_loaded_no_dispatch (source : Option (List String))
    (h : source = none ∨
      ∃ lines, source = some lines ∧ ∀ l ∈ lines, pyStrip l = "") :
    (∀ pool, (read_proxies pool source).1 = false) ∧
    main_dispatched source = [] := by
  have hfalse : ∀ pool, (read_proxies pool source).1 = false := by
    intro pool
    rcases h with rfl | ⟨lines, rfl, hblank⟩
    · rfl
    · simp [read_proxies, parseProxies,
        parseProxies_fold_blank lines [] hblank]
  exact ⟨hfalse, by simp [main_dispatched, hfalse []]⟩

/-- Witness for claim C7: a source of one empty and one blank line loads
nothing and dispatches nothing. -/
theorem no_proxies_loaded_no_dispatch_witness :
    (read_proxies [] (some ["", "   "])).1 = false ∧
    main_dispatched (some ["", "   "]) = [] :=
  ⟨(no_proxies_loaded_no_dispatch (some ["", "   "])
      (Or.inr ⟨["", "   "], rfl, by decide⟩)).1 [],
   (no_proxies_loaded_no_dispatch (some ["", "   "])
      (Or.inr ⟨["", "   "], rfl, by decide⟩)).2⟩

/-! Claim C10. -/

/-- Claim C10: read_proxies builds the pool keyed by the whitespace
stripped content of each non blank line: a string is a pool key exactly
when it is nonempty and is the stripped form of some input line, keys
are unique so duplicate endpoint lines collapse to one proxy identity,
and every loaded proxy starts with last used timestamp 0. -/
theorem read_proxies_pool_contents (lines : List String) :
    (read_proxies [] (some lines)).2 = parseProxies lines ∧
    (∀ kv ∈ parseProxies lines, kv.2 = 0) ∧
    (dictKeys (parseProxies lines)).Nodup ∧
    (∀ k, k ∈ dictKeys (parseProxies lines) ↔
      k ≠ "" ∧ ∃ l ∈ lines, pyStrip l = k) := by
  refine ⟨rfl, ?_, ?_, ?_⟩
  · exact parseProxies_fold_values lines [] (by simp)
  · exact parseProxies_fold_nodup lines [] (by simp [dictKeys])
  · intro k
    have h := parseProxies_fold_keys lines [] k
    simpa [dictKeys] using h

/-- Witness for claim C10 on a concrete file: the duplicate line
collapses onto the key a, and the entry value is 0. -/
theorem read_proxies_pool_contents_witness :
    "a" ∈ dictKeys (parseProxies ["a", " a ", "", "b"]) ∧
    (("a", (0 : Int)) : String × Int).2 = 0 :=
  ⟨((read_proxies_pool_contents ["a", " a ", "", "b"]).2.2.2 "a").mpr (by decide),
   (read_proxies_pool_contents ["a", " a ", "", "b"]).2.1 ("a", 0) (by decide)⟩

/-! Claim C8. -/

/-- Claim C8: when acquisition succeeds and the decoded search response
is not a dict, the task body bans the proxy used for that attempt (its
ban entry is the response time plus 180) and fails with the response
format error; any outer attempt failing with an error while retries
remain is followed by the next outer attempt. -/
theorem response_format_invalid_bans (σ : PMState) (tAcq tResp : Int)
    (env : SerpEnv) (hk : ProxyHandle × String)
    (hacq : (get_proxy σ tAcq).1 = .ok hk)
    (cid cs : String) (hok : env.access_keys = .ok (cid, cs))
    (hcid : ¬ cid = "") (hcs : ¬ cs = "")
    (j : PyJson) (hresp : env.search_response = .ok j)
    (hdict : j.isDict = false) :
    dictLookup (get_serp_results_body σ tAcq tResp env).1.banned_proxies hk.2 =
      some (tResp + 180) ∧
    (get_serp_results_body σ tAcq tResp env).2 =
      .error "Unexpected response format, retrying..." ∧
    (∀ (body : Nat → Except String Unit) (tAt : Nat → Int) (jdx : Nat)
      (err : String),
      jdx ∈ (retry_with_tracking body tAt 10).1 → body jdx = .error err →
      jdx < 10 → jdx + 1 ∈ (retry_with_tracking body tAt 10).1) := by
  have hretr : (get_proxy_retried (fun _ => (σ, tAcq)) (fun _ => (σ, tAcq))).2 =
      .ok (hk, (get_proxy σ tAcq).2) := by
    simp [get_proxy_retried, dynamic_retry_go, hacq]
  have hbody : get_serp_results_body σ tAcq tResp env =
      (ban_proxy (get_proxy σ tAcq).2 hk.2 tResp,
       .error "Unexpected response format, retrying...") := by
    rw [get_serp_results_body, hretr, hok]
    simp [hcid, hcs, hresp, hdict]
  refine ⟨?_, ?_, ?_⟩
  · rw [hbody]
    exact dictLookup_dictInsert_self _ _ _
  · rw [hbody]
  · intro body tAt jdx err hmem hberr hlt
    exact retry_go_next body tAt 10 11 0 [] (by omega) jdx err hmem hberr hlt

/-- Witness for claim C8: one-proxy pool, keys found, response decodes
to a JSON array; the proxy is banned until 186 and the body fails with
the format error. -/
theorem response_format_invalid_bans_witness :
    dictLookup
      (get_serp_results_body ⟨[("p", 0)], []⟩ 5 6
        ⟨.ok ("i", "s"), .ok (.arr [])⟩).1.banned_proxies "p" = some 186 ∧
    (get_serp_results_body ⟨[("p", 0)], []⟩ 5 6
        ⟨.ok ("i", "s"), .ok (.arr [])⟩).2 =
      .error "Unexpected response format, retrying..." := by
  have h := response_format_invalid_bans ⟨[("p", 0)], []⟩ 5 6
    ⟨.ok ("i", "s"), .ok (.arr [])⟩ (mkHandle "p", "p") rfl "i" "s" rfl
    (by decide) (by decide) (.arr []) rfl rfl
  exact ⟨by simpa using h.1, h.2.1⟩
